import Mathlib

/-!
Shallow embedding of the Technician Dispatch service (`src/app.py`).

The dispatch engine is modelled generically over a linearly ordered distance
type `F` (standing for Python's float), with the geometric estimator and the
external routing service passed as parameters: the routing service is external
I/O, so it appears as an oracle `F → F → F → F → Option F` giving, per
coordinate pair, the settled outcome (distance, or `none` after retries are
exhausted).  The haversine estimator itself is embedded over `ℝ`.
-/

namespace Dispatch

/-- `math.radians`, used by `haversine_km` (app.py lines 47-49). -/
noncomputable def radians (x : ℝ) : ℝ := x * Real.pi / 180

/-- `haversine_km` (app.py lines 45-51): great-circle distance, Earth radius 6371.0 km. -/
noncomputable def haversine_km (lat1 lon1 lat2 lon2 : ℝ) : ℝ :=
  let R : ℝ := 6371.0
  let phi1 := radians lat1
  let phi2 := radians lat2
  let dphi := radians (lat2 - lat1)
  let dlambda := radians (lon2 - lon1)
  let a := Real.sin (dphi / 2) ^ 2 +
    Real.cos phi1 * Real.cos phi2 * Real.sin (dlambda / 2) ^ 2
  2 * R * Real.arcsin (Real.sqrt a)

/-- A row of `public.customers` (app.py lines 63-69). -/
structure Customer (F : Type) where
  customerid : ℤ
  latitude : F
  longitude : F
deriving DecidableEq

/-- A row of `public.technicians` (app.py lines 70-77). -/
structure Technician (F : Type) where
  technicianid : ℤ
  latitude : F
  longitude : F
  is_active : Bool
deriving DecidableEq

/-- A row of `public.assignments` / `AssignmentModel` (app.py lines 38-43, 78-86). -/
structure Assignment (F : Type) where
  id : ℤ
  cust_id : ℤ
  tech_id : ℤ
  distance_km : F
  assigned_at : ℤ
deriving DecidableEq

/-- The persistent store: the three tables plus the id sequence and server clock
that generate `id` (SERIAL) and `assigned_at` (DEFAULT now()) on insert. -/
structure Store (F : Type) where
  customers : List (Customer F)
  technicians : List (Technician F)
  assignments : List (Assignment F)
  next_id : ℤ
  now : ℤ
deriving DecidableEq

/-- One entry of the `candidates` list `(est, tech_id, tlat, tlon)` (app.py line 134). -/
structure Candidate (F : Type) where
  est : F
  tech_id : ℤ
  tlat : F
  tlon : F
deriving DecidableEq

/-- The call-level error kinds of `dispatch_one` (app.py lines 121, 127, 154). -/
inductive DispatchError where
  | CustomerNotFound
  | NoTechniciansAvailable
  | NoResolvableTechnician
deriving DecidableEq

/-- `TOP_K = 5` (app.py line 129). -/
def TOP_K : ℕ := 5

/-- The selection loop of app.py lines 141-151: `best_dist` starts at infinity
(`none`), and each successful outcome replaces the current best iff it is
strictly smaller (`d < best_dist`); failures are skipped. -/
def pickBestAux {F : Type} [LinearOrder F] :
    List (ℤ × Option F) → Option (ℤ × F) → Option (ℤ × F)
  | [], best => best
  | (_, none) :: rest, best => pickBestAux rest best
  | (tid, some d) :: rest, best =>
    match best with
    | none => pickBestAux rest (some (tid, d))
    | some (bid, bd) =>
      if d < bd then pickBestAux rest (some (tid, d)) else pickBestAux rest (some (bid, bd))

/-- The Decision Picker: run the selection loop with `best_id = None`,
`best_dist = inf` (app.py lines 141-142). -/
def pickBest {F : Type} [LinearOrder F] (outcomes : List (ℤ × Option F)) : Option (ℤ × F) :=
  pickBestAux outcomes none

/-- The `candidates` list (app.py lines 130-134). -/
def build_candidates {F : Type} (est : F → F → F → F → F) (clat clon : F)
    (tech_rows : List (Technician F)) : List (Candidate F) :=
  tech_rows.map fun t =>
    ⟨est clat clon t.latitude t.longitude, t.technicianid, t.latitude, t.longitude⟩

/-- `candidates.sort(key=lambda x: x[0]); shortlist = candidates[:TOP_K]`
(app.py lines 135-136); Python's stable ascending sort by the `est` key is
modelled by a stable sort on the `est` field. -/
def build_shortlist {F : Type} [LinearOrder F] (est : F → F → F → F → F) (clat clon : F)
    (tech_rows : List (Technician F)) : List (Candidate F) :=
  (List.insertionSort (fun a b => a.est ≤ b.est)
    (build_candidates est clat clon tech_rows)).take TOP_K

/-- The Resolution Outcomes of one dispatch call (app.py lines 139, 143-146):
one `get_distance_km` task per shortlisted candidate, and the result loop
re-associates outcome `idx` with `shortlist[idx][1]`, so outcomes are keyed by
shortlist position. -/
def dispatch_outcomes {F : Type} [LinearOrder F] (est : F → F → F → F → F)
    (routing : F → F → F → F → Option F) (customer : Customer F)
    (tech_rows : List (Technician F)) : List (ℤ × Option F) :=
  (build_shortlist est customer.latitude customer.longitude tech_rows).map fun c =>
    (c.tech_id, routing customer.latitude customer.longitude c.tlat c.tlon)

/-- `dispatch_one` (app.py lines 115-158).  `est` is `haversine_km`; `routing`
is the settled per-pair result of `get_distance_km` after its retries.  The
second component of the result is the store after the call. -/
def dispatch_one {F : Type} [LinearOrder F] (est : F → F → F → F → F)
    (routing : F → F → F → F → Option F) (st : Store F) (cust_id : ℤ) :
    Except DispatchError (Assignment F) × Store F :=
  match st.customers.find? (fun c => c.customerid == cust_id) with
  | none => (.error .CustomerNotFound, st)
  | some customer =>
    if (st.technicians.filter (fun t => t.is_active)).isEmpty then
      (.error .NoTechniciansAvailable, st)
    else
      match pickBest (dispatch_outcomes est routing customer
          (st.technicians.filter (fun t => t.is_active))) with
      | none => (.error .NoResolvableTechnician, st)
      | some (best_id, best_dist) =>
        (.ok ⟨st.next_id, cust_id, best_id, best_dist, st.now⟩,
          ⟨st.customers, st.technicians,
            st.assignments ++ [⟨st.next_id, cust_id, best_id, best_dist, st.now⟩],
            st.next_id + 1, st.now⟩)

/-- `list_assignments` (app.py lines 160-165): `SELECT ... ORDER BY assigned_at DESC`. -/
def list_assignments {F : Type} (st : Store F) : List (Assignment F) :=
  List.insertionSort (fun a b => b.assigned_at ≤ a.assigned_at) st.assignments

/-- The backoff schedule `wait_exponential(min=1, max=10)` of the tenacity
decorator on `get_distance_km` (app.py line 88): before retry number `n`
(1-based) the caller sleeps `max(min_, min(multiplier * 2 ^ (n - 1), max_))`
time-units, with the default multiplier 1 and exponent base 2. -/
def wait_exponential (mn mx n : ℕ) : ℕ :=
  max mn (min (2 ^ (n - 1)) mx)

/-- The retry driver of the tenacity decorator (app.py line 88): `attempt n` is
the outcome of the `n`-th call of the decorated body (1-based), `wait n` the
sleep after a failed attempt `n`, and `fuel` the number of retries still
allowed.  Returns the final outcome (with `reraise=True` the last failure is
re-raised as-is) together with the list of sleeps performed. -/
def retryLoop {E A : Type} (attempt : ℕ → Except E A) (wait : ℕ → ℕ) :
    ℕ → ℕ → Except E A × List ℕ
  | n, 0 => (attempt n, [])
  | n, fuel + 1 =>
    match attempt n with
    | .ok a => (.ok a, [])
    | .error _ =>
      let r := retryLoop attempt wait (n + 1) fuel
      (r.1, wait n :: r.2)

/-- `get_distance_km`'s retry policy (app.py line 88): `stop_after_attempt(3)`
means attempt numbers 1, 2, 3 (at most 2 retries after the first attempt),
with `wait_exponential(min=1, max=10)` sleeps in between. -/
def get_distance_km_retried {E A : Type} (attempt : ℕ → Except E A) :
    Except E A × List ℕ :=
  retryLoop attempt (wait_exponential 1 10) 1 2

/-- One feature of the routing-service JSON body: `distance` is
`features[i]["properties"]["summary"]["distance"]` when that path exists and
is numeric, `none` otherwise (app.py lines 98-99 treat a missing `properties`,
`summary` or `distance` uniformly). -/
structure ORSFeature (F : Type) where
  distance : Option F
deriving DecidableEq

/-- A routing-service HTTP response: `status_error` is whether
`raise_for_status` throws (non-2xx), `features` is the optional `features`
array of the JSON body (app.py lines 93-95). -/
structure ORSResponse (F : Type) where
  status_error : Bool
  features : Option (List (ORSFeature F))
deriving DecidableEq

/-- The ways a single `get_distance_km` attempt raises (app.py lines 92-101). -/
inductive AttemptError where
  | TransportError
  | HTTPStatusError
  | NoFeatures
  | MissingDistance
deriving DecidableEq

/-- The body of one `get_distance_km` attempt (app.py lines 89-102): the input
is the transport-level result of the HTTP GET (`.error` = network error or
timeout).  `data.get("features") or []` maps an absent array to `[]`; on
success the meters value is divided by 1000. -/
def get_distance_km_attempt {F : Type} [DivisionRing F]
    (resp : Except Unit (ORSResponse F)) : Except AttemptError F :=
  match resp with
  | .error _ => .error .TransportError
  | .ok r =>
    if r.status_error then .error .HTTPStatusError
    else
      match r.features.getD [] with
      | [] => .error .NoFeatures
      | f :: _ =>
        match f.distance with
        | none => .error .MissingDistance
        | some m => .ok (m / 1000)

/-! ## Helper lemmas -/

theorem pickBestAux_all_none {F : Type} [LinearOrder F] :
    ∀ (l : List (ℤ × Option F)), (∀ p ∈ l, p.2 = none) →
      ∀ b, pickBestAux l b = b := by
  intro l
  induction l with
  | nil => intro _ b; rfl
  | cons hd rest ih =>
    intro h b
    obtain ⟨tid, o⟩ := hd
    have h0 : o = none := h (tid, o) (List.mem_cons_self _ _)
    subst h0
    simp only [pickBestAux]
    exact ih (fun p hp => h p (List.mem_cons_of_mem _ hp)) b

theorem pickBest_all_none {F : Type} [LinearOrder F] (l : List (ℤ × Option F))
    (h : ∀ p ∈ l, p.2 = none) : pickBest l = none :=
  pickBestAux_all_none l h none

theorem pickBestAux_mem {F : Type} [LinearOrder F] :
    ∀ (l : List (ℤ × Option F)) (b : Option (ℤ × F)) (t : ℤ) (d : F),
      pickBestAux l b = some (t, d) → (t, some d) ∈ l ∨ b = some (t, d) := by
  intro l
  induction l with
  | nil => intro b t d h; right; exact h
  | cons hd rest ih =>
    intro b t d h
    obtain ⟨tid, o⟩ := hd
    cases o with
    | none =>
      simp only [pickBestAux] at h
      rcases ih b t d h with hm | hb
      · exact Or.inl (List.mem_cons_of_mem _ hm)
      · exact Or.inr hb
    | some d0 =>
      cases b with
      | none =>
        simp only [pickBestAux] at h
        rcases ih _ t d h with hm | hb
        · exact Or.inl (List.mem_cons_of_mem _ hm)
        · left
          obtain ⟨rfl, rfl⟩ : tid = t ∧ d0 = d := by
            simpa [Prod.ext_iff] using hb
          exact List.mem_cons_self _ _
      | some pr =>
        obtain ⟨bid, bd⟩ := pr
        simp only [pickBestAux] at h
        by_cases hlt : d0 < bd
        · rw [if_pos hlt] at h
          rcases ih _ t d h with hm | hb
          · exact Or.inl (List.mem_cons_of_mem _ hm)
          · left
            obtain ⟨rfl, rfl⟩ : tid = t ∧ d0 = d := by
              simpa [Prod.ext_iff] using hb
            exact List.mem_cons_self _ _
        · rw [if_neg hlt] at h
          rcases ih _ t d h with hm | hb
          · exact Or.inl (List.mem_cons_of_mem _ hm)
          · exact Or.inr hb

theorem pickBest_mem {F : Type} [LinearOrder F] (l : List (ℤ × Option F)) (t : ℤ) (d : F)
    (h : pickBest l = some (t, d)) : (t, some d) ∈ l := by
  rcases pickBestAux_mem l none t d h with hm | hb
  · exact hm
  · exact absurd hb (by simp)

theorem build_shortlist_length {F : Type} [LinearOrder F] (est : F → F → F → F → F)
    (clat clon : F) (techs : List (Technician F)) :
    (build_shortlist est clat clon techs).length = min techs.length TOP_K := by
  simp only [build_shortlist, build_candidates, List.length_take,
    List.length_insertionSort, List.length_map]
  omega

theorem build_shortlist_sorted_est {F : Type} [LinearOrder F] (est : F → F → F → F → F)
    (clat clon : F) (techs : List (Technician F)) :
    (build_shortlist est clat clon techs).Pairwise (fun a b => a.est ≤ b.est) := by
  haveI : IsTotal (Candidate F) (fun a b => a.est ≤ b.est) :=
    ⟨fun a b => le_total a.est b.est⟩
  haveI : IsTrans (Candidate F) (fun a b => a.est ≤ b.est) :=
    ⟨fun _ _ _ hab hbc => le_trans hab hbc⟩
  exact List.Pairwise.sublist (List.take_sublist _ _)
    (List.sorted_insertionSort _ (build_candidates est clat clon techs))

theorem build_shortlist_est_eq {F : Type} [LinearOrder F] (est : F → F → F → F → F)
    (clat clon : F) (techs : List (Technician F)) :
    ∀ c ∈ build_shortlist est clat clon techs, c.est = est clat clon c.tlat c.tlon := by
  intro c hc
  have h1 : c ∈ List.insertionSort (fun a b => a.est ≤ b.est)
      (build_candidates est clat clon techs) := List.mem_of_mem_take hc
  have h2 : c ∈ build_candidates est clat clon techs :=
    (List.perm_insertionSort _ _).mem_iff.mp h1
  obtain ⟨t, _, rfl⟩ := List.mem_map.mp h2
  rfl

/-! ## Claim theorems -/

/-- Claim C9: the geometric estimator is symmetric, `distance(A,B) =
distance(B,A)`, and `distance(A,A) = 0`, with the haversine formula using
Earth radius 6371.0 km (as fixed in the definition of `haversine_km`). -/
theorem C9_haversine_symm_and_self_zero (lat1 lon1 lat2 lon2 : ℝ) :
    haversine_km lat1 lon1 lat2 lon2 = haversine_km lat2 lon2 lat1 lon1 ∧
    haversine_km lat1 lon1 lat1 lon1 = 0 := by
  constructor
  · have hsin : ∀ x y : ℝ, Real.sin (radians (x - y) / 2) ^ 2
        = Real.sin (radians (y - x) / 2) ^ 2 := by
      intro x y
      rw [show radians (x - y) / 2 = -(radians (y - x) / 2) by unfold radians; ring,
        Real.sin_neg, neg_sq]
    simp only [haversine_km]
    rw [hsin lat1 lat2, hsin lon1 lon2,
      mul_comm (Real.cos (radians lat2)) (Real.cos (radians lat1))]
  · simp [haversine_km, radians]

/-- Claim C10: the assignment listing is a permutation of the persisted
assignments (every record, fields unchanged) ordered by `assigned_at`
descending. -/
theorem C10_list_assignments_complete_desc {F : Type} (st : Store F) :
    (list_assignments st).Perm st.assignments ∧
    (list_assignments st).Pairwise (fun a b => b.assigned_at ≤ a.assigned_at) := by
  constructor
  · exact List.perm_insertionSort _ st.assignments
  · haveI : IsTotal (Assignment F) (fun a b => b.assigned_at ≤ a.assigned_at) :=
      ⟨fun a b => le_total b.assigned_at a.assigned_at⟩
    haveI : IsTrans (Assignment F) (fun a b => b.assigned_at ≤ a.assigned_at) :=
      ⟨fun _ _ _ hab hbc => le_trans hbc hab⟩
    exact List.sorted_insertionSort _ st.assignments

/-- Claim C2: for every target coordinate and collection of N active
technicians, the shortlist has exactly `min N 5` entries and is ordered
ascending by the haversine estimate from the target. -/
theorem C2_shortlist_size_and_order (clat clon : ℝ) (techs : List (Technician ℝ)) :
    (build_shortlist haversine_km clat clon techs).length = min techs.length 5 ∧
    (build_shortlist haversine_km clat clon techs).Pairwise
      (fun a b => haversine_km clat clon a.tlat a.tlon ≤
        haversine_km clat clon b.tlat b.tlon) := by
  constructor
  · exact build_shortlist_length haversine_km clat clon techs
  · refine List.Pairwise.imp_of_mem ?_ (build_shortlist_sorted_est haversine_km clat clon techs)
    intro a b ha hb hle
    rw [build_shortlist_est_eq haversine_km clat clon techs a ha,
      build_shortlist_est_eq haversine_km clat clon techs b hb] at hle
    exact hle

theorem dispatch_one_ok_inv {F : Type} [LinearOrder F] (est : F → F → F → F → F)
    (routing : F → F → F → F → Option F) (st : Store F) (cust_id : ℤ)
    (a : Assignment F) (st' : Store F)
    (h : dispatch_one est routing st cust_id = (.ok a, st')) :
    st' = ⟨st.customers, st.technicians, st.assignments ++ [a], st.next_id + 1, st.now⟩ ∧
    a.id = st.next_id ∧ a.cust_id = cust_id ∧ a.assigned_at = st.now ∧
    ∃ customer, st.customers.find? (fun c => c.customerid == cust_id) = some customer ∧
      pickBest (dispatch_outcomes est routing customer
        (st.technicians.filter (fun t => t.is_active))) = some (a.tech_id, a.distance_km) := by
  unfold dispatch_one at h
  cases hfind : st.customers.find? (fun c => c.customerid == cust_id) with
  | none => simp only [hfind] at h; simp at h
  | some customer =>
    simp only [hfind] at h
    by_cases htech : (st.technicians.filter (fun t => t.is_active)).isEmpty
    · rw [if_pos htech] at h
      simp at h
    · rw [if_neg htech] at h
      cases hpick : pickBest (dispatch_outcomes est routing customer
          (st.technicians.filter (fun t => t.is_active))) with
      | none => simp only [hpick] at h; simp at h
      | some pr =>
        obtain ⟨best_id, best_dist⟩ := pr
        simp only [hpick] at h
        simp only [Prod.mk.injEq, Except.ok.injEq] at h
        obtain ⟨ha, hst⟩ := h
        subst ha
        subst hst
        exact ⟨rfl, rfl, rfl, rfl, customer, rfl, hpick⟩

/-- Claim C4: an unknown customer identifier yields `CustomerNotFound` (HTTP
404), the store is unchanged, and the result is the same for every routing
oracle — no routing call is consulted. -/
theorem C4_unknown_customer {F : Type} [LinearOrder F] (est : F → F → F → F → F)
    (st : Store F) (cust_id : ℤ)
    (h : ∀ c ∈ st.customers, c.customerid ≠ cust_id) :
    ∀ routing : F → F → F → F → Option F,
      dispatch_one est routing st cust_id = (.error .CustomerNotFound, st) := by
  intro routing
  have hf : st.customers.find? (fun c => c.customerid == cust_id) = none := by
    rw [List.find?_eq_none]
    intro c hc
    simpa using h c hc
  unfold dispatch_one
  simp only [hf]

/-- Claim C3: when every shortlisted candidate's routing resolution fails, the
dispatch call yields `NoResolvableTechnician` (HTTP 503) and the store is
unchanged — no Assignment is inserted. -/
theorem C3_all_routing_fail {F : Type} [LinearOrder F] (est : F → F → F → F → F)
    (routing : F → F → F → F → Option F) (st : Store F) (cust_id : ℤ)
    (customer : Customer F)
    (hfind : st.customers.find? (fun c => c.customerid == cust_id) = some customer)
    (htech : (st.technicians.filter (fun t => t.is_active)).isEmpty = false)
    (hfail : ∀ c ∈ build_shortlist est customer.latitude customer.longitude
        (st.technicians.filter (fun t => t.is_active)),
      routing customer.latitude customer.longitude c.tlat c.tlon = none) :
    dispatch_one est routing st cust_id = (.error .NoResolvableTechnician, st) := by
  have hnone : pickBest (dispatch_outcomes est routing customer
      (st.technicians.filter (fun t => t.is_active))) = none := by
    apply pickBest_all_none
    intro p hp
    simp only [dispatch_outcomes] at hp
    obtain ⟨c, hc, rfl⟩ := List.mem_map.mp hp
    exact hfail c hc
  unfold dispatch_one
  simp only [hfind]
  rw [if_neg (by simp [htech])]
  simp only [hnone]

/-- Claim C5: a successful dispatch call appends exactly one new Assignment,
whose customer id is the input, whose technician id and distance are the
Decision Picker's winner over the shortlist outcomes, and returns it with the
store-generated identifier and timestamp filled in. -/
theorem C5_success_inserts_one {F : Type} [LinearOrder F] (est : F → F → F → F → F)
    (routing : F → F → F → F → Option F) (st : Store F) (cust_id : ℤ)
    (a : Assignment F) (st' : Store F)
    (h : dispatch_one est routing st cust_id = (.ok a, st')) :
    st'.assignments = st.assignments ++ [a] ∧
    a.cust_id = cust_id ∧ a.id = st.next_id ∧ a.assigned_at = st.now ∧
    ∃ customer, st.customers.find? (fun c => c.customerid == cust_id) = some customer ∧
      pickBest (dispatch_outcomes est routing customer
        (st.technicians.filter (fun t => t.is_active))) = some (a.tech_id, a.distance_km) := by
  obtain ⟨hst, hid, hcust, hts, hrest⟩ := dispatch_one_ok_inv est routing st cust_id a st' h
  exact ⟨by rw [hst], hcust, hid, hts, hrest⟩

/-- Claim C8 is false as stated: the code never validates the distance
returned by the routing service, so a negative upstream value is persisted
as-is.  Concrete run: customer 1 at (0,0), one active technician 7, routing
returns -5; the dispatch call succeeds and stores distance -5 < 0. -/
theorem C8_counterexample :
    (dispatch_one (fun _ _ _ _ => (0 : ℚ)) (fun _ _ _ _ => some (-5))
        (⟨[⟨1, 0, 0⟩], [⟨7, 0, 1, true⟩], [], 10, 99⟩ : Store ℚ) 1).2.assignments =
      [⟨10, 1, 7, -5, 99⟩] ∧
    ¬ (0 : ℚ) ≤ (-5 : ℚ) := by
  constructor
  · rfl
  · norm_num

/-- Claim C8 (amended): the persisted distance of a successful dispatch call is
non-negative provided every successful routing resolution returns a
non-negative value (the code itself never checks the sign). -/
theorem C8_amended_nonneg {F : Type} [LinearOrder F] [Zero F] (est : F → F → F → F → F)
    (routing : F → F → F → F → Option F) (st : Store F) (cust_id : ℤ)
    (a : Assignment F) (st' : Store F)
    (hpos : ∀ x1 y1 x2 y2 v, routing x1 y1 x2 y2 = some v → 0 ≤ v)
    (h : dispatch_one est routing st cust_id = (.ok a, st')) :
    0 ≤ a.distance_km ∧ a ∈ st'.assignments := by
  obtain ⟨hst, _, _, _, customer, _, hpick⟩ := dispatch_one_ok_inv est routing st cust_id a st' h
  constructor
  · have hmem := pickBest_mem _ _ _ hpick
    simp only [dispatch_outcomes] at hmem
    obtain ⟨c, _, hc⟩ := List.mem_map.mp hmem
    have hr : routing customer.latitude customer.longitude c.tlat c.tlon
        = some a.distance_km := by
      have := congrArg Prod.snd hc
      simpa using this
    exact hpos _ _ _ _ _ hr
  · rw [hst]; simp

theorem retryLoop_succ {E A : Type} (attempt : ℕ → Except E A) (wait : ℕ → ℕ)
    (n fuel : ℕ) :
    retryLoop attempt wait n (fuel + 1) =
      match attempt n with
      | .ok a => (.ok a, [])
      | .error _ =>
        ((retryLoop attempt wait (n + 1) fuel).1,
          wait n :: (retryLoop attempt wait (n + 1) fuel).2) := by
  rw [retryLoop]

theorem get_distance_km_retried_eq {E A : Type} (attempt : ℕ → Except E A) :
    get_distance_km_retried attempt =
      match attempt 1 with
      | .ok a => (.ok a, [])
      | .error _ =>
        match attempt 2 with
        | .ok a => (.ok a, [1])
        | .error _ => (attempt 3, [1, 2]) := by
  unfold get_distance_km_retried
  rw [show (2 : ℕ) = 1 + 1 from rfl, retryLoop_succ]
  cases h1 : attempt 1 with
  | ok a => rfl
  | error e =>
    rw [show (1 : ℕ) = 0 + 1 from rfl, retryLoop_succ]
    cases h2 : attempt 2 with
    | ok a => rfl
    | error e2 => rfl

/-- Claim C6: the routing resolution makes at most 3 total attempts, sleeps
between attempts following the exponential schedule starting at 1 time-unit
and capped at 10 (`wait_exponential 1 10`, giving sleeps 1 then 2 here), and
when the third attempt also fails that final failure is surfaced unchanged. -/
theorem C6_retry_policy {E A : Type} (attempt : ℕ → Except E A) :
    (get_distance_km_retried attempt).2.length + 1 ≤ 3 ∧
    (get_distance_km_retried attempt).2 =
      [wait_exponential 1 10 1, wait_exponential 1 10 2].take
        (get_distance_km_retried attempt).2.length ∧
    (wait_exponential 1 10 1 = 1 ∧ wait_exponential 1 10 2 = 2 ∧
      ∀ n, 1 ≤ wait_exponential 1 10 n ∧ wait_exponential 1 10 n ≤ 10) ∧
    ∀ e1 e2 e3, attempt 1 = .error e1 → attempt 2 = .error e2 → attempt 3 = .error e3 →
      (get_distance_km_retried attempt).1 = .error e3 := by
  refine ⟨?_, ?_, ⟨rfl, rfl, fun n =>
    ⟨le_max_left _ _, max_le (by norm_num) (min_le_right _ _)⟩⟩, ?_⟩
  · rw [get_distance_km_retried_eq]
    cases h1 : attempt 1 with
    | ok a => simp
    | error e =>
      cases h2 : attempt 2 with
      | ok a => simp
      | error e2 => simp
  · rw [get_distance_km_retried_eq]
    cases h1 : attempt 1 with
    | ok a => simp
    | error e =>
      cases h2 : attempt 2 with
      | ok a => simp [wait_exponential]
      | error e2 => simp [wait_exponential]
  · intro e1 e2 e3 h1 h2 h3
    rw [get_distance_km_retried_eq]
    simp [h1, h2, h3]

/-- Claim C7: a routing-service response attempt with a non-error status, a
non-empty `features` array and a numeric distance field yields that distance
divided by 1000 (meters to kilometers); an absent or empty `features` array,
or a missing distance field, makes the attempt fail. -/
theorem C7_attempt_parse {F : Type} [DivisionRing F] (r : ORSResponse F) :
    (∀ f rest m, r.status_error = false → r.features = some (f :: rest) →
      f.distance = some m → get_distance_km_attempt (.ok r) = .ok (m / 1000)) ∧
    (r.features = none ∨ r.features = some [] →
      ∃ e, get_distance_km_attempt (.ok r) = .error e) ∧
    (∀ f rest, r.features = some (f :: rest) → f.distance = none →
      ∃ e, get_distance_km_attempt (.ok r) = .error e) := by
  refine ⟨?_, ?_, ?_⟩
  · intro f rest m hse hf hd
    simp [get_distance_km_attempt, hse, hf, hd]
  · intro hf
    by_cases hse : r.status_error
    · exact ⟨.HTTPStatusError, by simp [get_distance_km_attempt, hse]⟩
    · refine ⟨.NoFeatures, ?_⟩
      rcases hf with hf | hf
      · simp [get_distance_km_attempt, hse, hf]
      · simp [get_distance_km_attempt, hse, hf]
  · intro f rest hf hd
    by_cases hse : r.status_error
    · exact ⟨.HTTPStatusError, by simp [get_distance_km_attempt, hse]⟩
    · exact ⟨.MissingDistance, by simp [get_distance_km_attempt, hse, hf, hd]⟩

theorem pickBestAux_spec {F : Type} [LinearOrder F] :
    ∀ (l : List (ℤ × Option F)) (bid : ℤ) (bd : F),
      (pickBestAux l (some (bid, bd)) = some (bid, bd) ∧
        ∀ k (hk : k < l.length) dk, (l[k]).2 = some dk → bd ≤ dk) ∨
      (∃ j, ∃ hj : j < l.length, ∃ d,
        (l[j]).2 = some d ∧
        pickBestAux l (some (bid, bd)) = some ((l[j]).1, d) ∧
        d < bd ∧
        (∀ k (hk : k < l.length) dk, (l[k]).2 = some dk → d ≤ dk) ∧
        (∀ k (hk : k < l.length) dk, k < j → (l[k]).2 = some dk → d < dk)) := by
  intro l
  induction l with
  | nil =>
    intro bid bd
    left
    refine ⟨rfl, ?_⟩
    intro k hk
    simp at hk
  | cons hd rest ih =>
    intro bid bd
    obtain ⟨tid, o⟩ := hd
    cases o with
    | none =>
      rcases ih bid bd with ⟨heq, hmin⟩ | ⟨j, hj, d, hjd, heq, hlt, hmin, hfirst⟩
      · left
        refine ⟨?_, ?_⟩
        · simp only [pickBestAux]
          exact heq
        · intro k hk dk hkd
          cases k with
          | zero => simp at hkd
          | succ k =>
            exact hmin k (by simp only [List.length_cons] at hk; omega) dk
              (by simpa using hkd)
      · right
        refine ⟨j + 1, by simp only [List.length_cons]; omega, d, by simpa using hjd,
          ?_, hlt, ?_, ?_⟩
        · simp only [pickBestAux]
          simpa using heq
        · intro k hk dk hkd
          cases k with
          | zero => simp at hkd
          | succ k =>
            exact hmin k (by simp only [List.length_cons] at hk; omega) dk
              (by simpa using hkd)
        · intro k hk dk hkj hkd
          cases k with
          | zero => simp at hkd
          | succ k =>
            exact hfirst k (by simp only [List.length_cons] at hk; omega) dk
              (by omega) (by simpa using hkd)
    | some d0 =>
      by_cases hlt0 : d0 < bd
      · rcases ih tid d0 with ⟨heq, hmin⟩ | ⟨j, hj, d, hjd, heq, hlt, hmin, hfirst⟩
        · right
          refine ⟨0, by simp, d0, by simp, ?_, hlt0, ?_, ?_⟩
          · simp only [pickBestAux]
            rw [if_pos hlt0]
            simpa using heq
          · intro k hk dk hkd
            cases k with
            | zero =>
              have : d0 = dk := by simpa using hkd
              exact this.le
            | succ k =>
              exact hmin k (by simp only [List.length_cons] at hk; omega) dk
                (by simpa using hkd)
          · intro k hk dk hkj hkd
            exact absurd hkj (Nat.not_lt_zero k)
        · right
          refine ⟨j + 1, by simp only [List.length_cons]; omega, d, by simpa using hjd,
            ?_, lt_trans hlt hlt0, ?_, ?_⟩
          · simp only [pickBestAux]
            rw [if_pos hlt0]
            simpa using heq
          · intro k hk dk hkd
            cases k with
            | zero =>
              have h0 : d0 = dk := by simpa using hkd
              exact h0 ▸ hlt.le
            | succ k =>
              exact hmin k (by simp only [List.length_cons] at hk; omega) dk
                (by simpa using hkd)
          · intro k hk dk hkj hkd
            cases k with
            | zero =>
              have h0 : d0 = dk := by simpa using hkd
              exact h0 ▸ hlt
            | succ k =>
              exact hfirst k (by simp only [List.length_cons] at hk; omega) dk
                (by omega) (by simpa using hkd)
      · have hge : bd ≤ d0 := le_of_not_lt hlt0
        rcases ih bid bd with ⟨heq, hmin⟩ | ⟨j, hj, d, hjd, heq, hlt, hmin, hfirst⟩
        · left
          refine ⟨?_, ?_⟩
          · simp only [pickBestAux]
            rw [if_neg hlt0]
            exact heq
          · intro k hk dk hkd
            cases k with
            | zero =>
              have h0 : d0 = dk := by simpa using hkd
              exact h0 ▸ hge
            | succ k =>
              exact hmin k (by simp only [List.length_cons] at hk; omega) dk
                (by simpa using hkd)
        · right
          refine ⟨j + 1, by simp only [List.length_cons]; omega, d, by simpa using hjd,
            ?_, hlt, ?_, ?_⟩
          · simp only [pickBestAux]
            rw [if_neg hlt0]
            simpa using heq
          · intro k hk dk hkd
            cases k with
            | zero =>
              have h0 : d0 = dk := by simpa using hkd
              exact h0 ▸ (hlt.le.trans hge)
            | succ k =>
              exact hmin k (by simp only [List.length_cons] at hk; omega) dk
                (by simpa using hkd)
          · intro k hk dk hkj hkd
            cases k with
            | zero =>
              have h0 : d0 = dk := by simpa using hkd
              exact h0 ▸ (lt_of_lt_of_le hlt hge)
            | succ k =>
              exact hfirst k (by simp only [List.length_cons] at hk; omega) dk
                (by omega) (by simpa using hkd)

/-- Claim C1: whenever at least one outcome resolved successfully, the
Decision Picker returns the outcome with the minimum successful distance, and
among equal minima the one at the earliest position (the shortlist's geometric
rank order, which is how `dispatch_one` lays out the outcomes). -/
theorem C1_decision_picker_min {F : Type} [LinearOrder F] (l : List (ℤ × Option F))
    (hex : ∃ i, ∃ hi : i < l.length, (l[i]).2 ≠ none) :
    ∃ j, ∃ hj : j < l.length, ∃ d,
      (l[j]).2 = some d ∧
      pickBest l = some ((l[j]).1, d) ∧
      (∀ k (hk : k < l.length) dk, (l[k]).2 = some dk → d ≤ dk) ∧
      (∀ k (hk : k < l.length) dk, k < j → (l[k]).2 = some dk → d < dk) := by
  induction l with
  | nil =>
    obtain ⟨i, hi, _⟩ := hex
    simp at hi
  | cons hd rest ih =>
    obtain ⟨tid, o⟩ := hd
    cases o with
    | none =>
      have hex' : ∃ i, ∃ hi : i < rest.length, (rest[i]).2 ≠ none := by
        obtain ⟨i, hi, hne⟩ := hex
        cases i with
        | zero => simp at hne
        | succ i =>
          exact ⟨i, by simp only [List.length_cons] at hi; omega, by simpa using hne⟩
      obtain ⟨j, hj, d, hjd, heq, hmin, hfirst⟩ := ih hex'
      refine ⟨j + 1, by simp only [List.length_cons]; omega, d, by simpa using hjd,
        ?_, ?_, ?_⟩
      · simp only [pickBest, pickBestAux]
        simp only [pickBest] at heq
        simpa using heq
      · intro k hk dk hkd
        cases k with
        | zero => simp at hkd
        | succ k =>
          exact hmin k (by simp only [List.length_cons] at hk; omega) dk
            (by simpa using hkd)
      · intro k hk dk hkj hkd
        cases k with
        | zero => simp at hkd
        | succ k =>
          exact hfirst k (by simp only [List.length_cons] at hk; omega) dk
            (by omega) (by simpa using hkd)
    | some d0 =>
      rcases pickBestAux_spec rest tid d0 with ⟨heq, hmin⟩ | ⟨j, hj, d, hjd, heq, hlt, hmin, hfirst⟩
      · refine ⟨0, by simp, d0, by simp, ?_, ?_, ?_⟩
        · simp only [pickBest, pickBestAux]
          simpa using heq
        · intro k hk dk hkd
          cases k with
          | zero =>
            have h0 : d0 = dk := by simpa using hkd
            exact h0.le
          | succ k =>
            exact hmin k (by simp only [List.length_cons] at hk; omega) dk
              (by simpa using hkd)
        · intro k hk dk hkj hkd
          exact absurd hkj (Nat.not_lt_zero k)
      · refine ⟨j + 1, by simp only [List.length_cons]; omega, d, by simpa using hjd,
          ?_, ?_, ?_⟩
        · simp only [pickBest, pickBestAux]
          simpa using heq
        · intro k hk dk hkd
          cases k with
          | zero =>
            have h0 : d0 = dk := by simpa using hkd
            exact h0 ▸ hlt.le
          | succ k =>
            exact hmin k (by simp only [List.length_cons] at hk; omega) dk
              (by simpa using hkd)
        · intro k hk dk hkj hkd
          cases k with
          | zero =>
            have h0 : d0 = dk := by simpa using hkd
            exact h0 ▸ hlt
          | succ k =>
            exact hfirst k (by simp only [List.length_cons] at hk; omega) dk
              (by omega) (by simpa using hkd)

/-! ## Witnesses: the claim theorems applied at concrete inputs -/

theorem C1_witness :
    ∃ j, ∃ hj : j < ([(5, none), (7, some 3)] : List (ℤ × Option ℚ)).length, ∃ d,
      (([(5, none), (7, some 3)] : List (ℤ × Option ℚ))[j]).2 = some d ∧
      pickBest ([(5, none), (7, some 3)] : List (ℤ × Option ℚ)) =
        some ((([(5, none), (7, some 3)] : List (ℤ × Option ℚ))[j]).1, d) ∧
      (∀ k (hk : k < ([(5, none), (7, some 3)] : List (ℤ × Option ℚ)).length) dk,
        (([(5, none), (7, some 3)] : List (ℤ × Option ℚ))[k]).2 = some dk → d ≤ dk) ∧
      (∀ k (hk : k < ([(5, none), (7, some 3)] : List (ℤ × Option ℚ)).length) dk,
        k < j → (([(5, none), (7, some 3)] : List (ℤ × Option ℚ))[k]).2 = some dk →
          d < dk) :=
  C1_decision_picker_min _ ⟨1, by decide, by decide⟩

theorem C3_witness :
    dispatch_one (fun _ _ _ _ => (0 : ℚ)) (fun _ _ _ _ => (none : Option ℚ))
        (⟨[⟨1, 0, 0⟩], [⟨7, 0, 1, true⟩], [], 10, 99⟩ : Store ℚ) 1 =
      (.error .NoResolvableTechnician,
        (⟨[⟨1, 0, 0⟩], [⟨7, 0, 1, true⟩], [], 10, 99⟩ : Store ℚ)) :=
  C3_all_routing_fail _ _ _ _ ⟨1, 0, 0⟩ (by decide) (by decide) (fun _ _ => rfl)

theorem C4_witness :
    dispatch_one (fun _ _ _ _ => (0 : ℚ)) (fun _ _ _ _ => (none : Option ℚ))
        (⟨[⟨5, 0, 0⟩], [], [], 0, 0⟩ : Store ℚ) 7 =
      (.error .CustomerNotFound, (⟨[⟨5, 0, 0⟩], [], [], 0, 0⟩ : Store ℚ)) :=
  C4_unknown_customer _ _ _ (by decide) _

theorem C5_witness :
    (⟨[⟨1, 0, 0⟩], [⟨7, 0, 1, true⟩], [⟨10, 1, 7, 5, 99⟩], 11, 99⟩ : Store ℚ).assignments =
      (⟨[⟨1, 0, 0⟩], [⟨7, 0, 1, true⟩], [], 10, 99⟩ : Store ℚ).assignments ++
        [(⟨10, 1, 7, 5, 99⟩ : Assignment ℚ)] ∧
    (⟨10, 1, 7, 5, 99⟩ : Assignment ℚ).cust_id = 1 ∧
    (⟨10, 1, 7, 5, 99⟩ : Assignment ℚ).id =
      (⟨[⟨1, 0, 0⟩], [⟨7, 0, 1, true⟩], [], 10, 99⟩ : Store ℚ).next_id ∧
    (⟨10, 1, 7, 5, 99⟩ : Assignment ℚ).assigned_at =
      (⟨[⟨1, 0, 0⟩], [⟨7, 0, 1, true⟩], [], 10, 99⟩ : Store ℚ).now ∧
    ∃ customer,
      (⟨[⟨1, 0, 0⟩], [⟨7, 0, 1, true⟩], [], 10, 99⟩ : Store ℚ).customers.find?
        (fun c => c.customerid == 1) = some customer ∧
      pickBest (dispatch_outcomes (fun _ _ _ _ => (0 : ℚ))
        (fun _ _ _ _ => (some 5 : Option ℚ)) customer
        ((⟨[⟨1, 0, 0⟩], [⟨7, 0, 1, true⟩], [], 10, 99⟩ : Store ℚ).technicians.filter
          (fun t => t.is_active))) =
        some ((⟨10, 1, 7, 5, 99⟩ : Assignment ℚ).tech_id,
          (⟨10, 1, 7, 5, 99⟩ : Assignment ℚ).distance_km) :=
  C5_success_inserts_one _ _ _ _ _ _ rfl

theorem C6_witness :
    (get_distance_km_retried (fun _ => (Except.error 0 : Except ℕ ℕ))).1 = Except.error 0 ∧
    (get_distance_km_retried (fun _ => (Except.error 0 : Except ℕ ℕ))).2.length + 1 ≤ 3 :=
  ⟨(C6_retry_policy _).2.2.2 0 0 0 rfl rfl rfl, (C6_retry_policy _).1⟩

theorem C7_witness :
    get_distance_km_attempt (.ok (⟨false, some [⟨some 2000⟩]⟩ : ORSResponse ℚ)) =
      .ok (2000 / 1000) :=
  (C7_attempt_parse _).1 ⟨some 2000⟩ [] 2000 rfl rfl rfl

theorem C8_witness :
    (0 : ℚ) ≤ (⟨10, 1, 7, 5, 99⟩ : Assignment ℚ).distance_km ∧
    (⟨10, 1, 7, 5, 99⟩ : Assignment ℚ) ∈
      (⟨[⟨1, 0, 0⟩], [⟨7, 0, 1, true⟩], [⟨10, 1, 7, 5, 99⟩], 11, 99⟩ : Store ℚ).assignments :=
  C8_amended_nonneg (fun _ _ _ _ => (0 : ℚ)) (fun _ _ _ _ => (some 5 : Option ℚ))
    ⟨[⟨1, 0, 0⟩], [⟨7, 0, 1, true⟩], [], 10, 99⟩ 1 _ _
    (fun _ _ _ _ v hv => by
      obtain rfl : (5 : ℚ) = v := Option.some.inj hv
      norm_num)
    rfl

end Dispatch
